import Mathlib

/-!
Verification of the spiffe-helper rotation daemon core
(`pkg/helper/spiffe-helper.go`), shallowly embedded in Lean 4.

Byte blobs are `List Nat`; external library behaviour (x509 parsing,
PEM encoding, file-write success, process spawn and signal delivery)
is supplied through an explicit environment `GoEnv`, since those live
outside the repository.  Goroutines (`go s.checkProcessExit()`) are
modelled as deferred tasks: launching one records it; its statements
run only when a separate scheduler step executes it.
-/

namespace SpiffeHelper

/-- Raw byte blob (Go `[]byte`). -/
abbrev Bytes := List Nat

/-- A parsed DER certificate; `raw` is `cert.Raw`. -/
structure Cert where
  raw : Bytes
deriving DecidableEq, Repr

/-- A `pem.Block`: type label and wrapped bytes. -/
structure PemBlock where
  blockType : String
  bytes : Bytes
deriving DecidableEq, Repr

/-- One SVID entry of an `X509SVIDResponse` (proto message). -/
structure X509SVID where
  spiffeId : String
  x509Svid : Bytes
  x509SvidKey : Bytes
  bundle : Bytes
deriving DecidableEq, Repr

/-- An identity update from the Workload API. -/
structure X509SVIDResponse where
  svids : List X509SVID
deriving DecidableEq, Repr

/-- The `config.SidecarConfig` fields used by the helper (the config package
itself is external to the core; the record mirrors the fields read by
`spiffe-helper.go`). -/
structure SidecarConfig where
  agentAddress : String
  cmd : String
  cmdArgs : String
  certDir : String
  renewSignal : String
  svidFileName : String
  svidKeyFileName : String
  svidBundleFileName : String
deriving DecidableEq, Repr

/-- Environment supplying the behaviour of external libraries:
`x509.ParseCertificates`, `pem.EncodeToMemory`, whether
`ioutil.WriteFile` succeeds on a path, whether the n-th `cmd.Start()`
succeeds, and whether `Process.Signal` succeeds for a pid/signal. -/
structure GoEnv where
  parseCertificates : Bytes → Except String (List Cert)
  pemEncodeToMemory : PemBlock → Bytes
  writeFileOk : String → Bool
  startOk : Nat → Bool
  signalOk : Nat → Nat → Bool

/-- On-disk state: association list from path to (contents, permission mode). -/
abbrev FileSys := List (String × Bytes × Nat)

/-- Read a file (first matching entry). -/
def fsGet : FileSys → String → Option (Bytes × Nat)
  | [], _ => none
  | (q, v) :: rest, p => if q = p then some v else fsGet rest p

/-- Overwrite (or create) a file. -/
def fsSet : FileSys → String → Bytes × Nat → FileSys
  | [], p, v => [(p, v)]
  | (q, w) :: rest, p, v =>
    if q = p then (p, v) :: rest else (q, w) :: fsSet rest p v

/-- Model of `ioutil.WriteFile`: full-contents replacement with the given mode;
failure (decided by the environment) leaves the file untouched. -/
def writeFileGo (env : GoEnv) (fs : FileSys) (file : String) (data : Bytes)
    (perm : Nat) : FileSys × Option String :=
  if env.writeFileOk file then (fsSet fs file (data, perm), none)
  else (fs, some ("write " ++ file ++ ": I/O error"))

/-- Model of `path.Join(dir, name)` as used here (both components non-degenerate). -/
def pathJoin (dir name : String) : String := dir ++ "/" ++ name

/-- The constant `certsFileMode = os.FileMode(0644)`. -/
def certsFileMode : Nat := 0o644

/-- The constant `keyFileMode = os.FileMode(0600)`. -/
def keyFileMode : Nat := 0o600

/-- The switch table of `getSignal`, in source order; values are the
Linux signal numbers of the corresponding `syscall` constants. -/
def signalTable : List (String × Nat) :=
  [("SIGABRT", 6), ("SIGALRM", 14), ("SIGBUS", 7), ("SIGCHLD", 17),
   ("SIGCONT", 18), ("SIGFPE", 8), ("SIGHUP", 1), ("SIGILL", 4),
   ("SIGIO", 29), ("SIGIOT", 6), ("SIGKILL", 9), ("SIGPIPE", 13),
   ("SIGPROF", 27), ("SIGQUIT", 3), ("SIGSEGV", 11), ("SIGSTOP", 19),
   ("SIGSYS", 31), ("SIGTERM", 15), ("SIGTRAP", 5), ("SIGTSTP", 20),
   ("SIGTTIN", 21), ("SIGTTOU", 22), ("SIGURG", 23), ("SIGUSR1", 10),
   ("SIGUSR2", 12), ("SIGVTALRM", 26), ("SIGWINCH", 28), ("SIGXCPU", 24),
   ("SIGXFSZ", 25)]

/-- Translation of `getSignal`: exact match against the fixed table (a Go `switch` on
string literals); the default branch leaves `sig` at its zero value and
sets the error. -/
def getSignal (s : String) : Nat × Option String :=
  match signalTable.lookup s with
  | some sig => (sig, none)
  | none => (0, some ("unrecognized signal: " ++ s))

/-- Model of `strings.Split(s, " ")` on a character list: split around every
space, keeping empty fields; the empty input yields one empty field. -/
def splitSpace : List Char → List (List Char)
  | [] => [[]]
  | c :: rest =>
    if c = ' ' then [] :: splitSpace rest
    else
      match splitSpace rest with
      | [] => [[c]]
      | w :: ws => (c :: w) :: ws

/-- Model of `strings.Split(s, " ")` on a `String`. -/
def goSplitSpace (s : String) : List String :=
  (splitSpace s.data).map fun l => String.mk l

/-- Translation of `writeCerts`: parse the blob as DER certificates, re-encode each as
a PEM block labelled CERTIFICATE, appending into `pemData` in loop
order, and write the concatenation with `certsFileMode`. -/
def writeCerts (env : GoEnv) (fs : FileSys) (file : String) (data : Bytes) :
    FileSys × Option String :=
  match env.parseCertificates data with
  | .error e => (fs, some e)
  | .ok certs =>
    let pemData := certs.foldl
      (fun acc cert => acc ++ env.pemEncodeToMemory ⟨"CERTIFICATE", cert.raw⟩) []
    writeFileGo env fs file pemData certsFileMode

/-- Translation of `writeKey`: wrap the raw key bytes as a single PEM block with the
fixed label EC PRIVATE KEY and write it with `keyFileMode`. -/
def writeKey (env : GoEnv) (fs : FileSys) (file : String) (data : Bytes) :
    FileSys × Option String :=
  writeFileGo env fs file
    (env.pemEncodeToMemory ⟨"EC PRIVATE KEY", data⟩) keyFileMode

/-- Outcome of a Go call that may return an error or panic. -/
inductive GoResult where
  | ok : GoResult
  | err : String → GoResult
  | panicked : String → GoResult
deriving DecidableEq, Repr

/-- Translation of `dumpBundles`: index `Svids[0]` (a runtime panic when the slice is
empty), then write the SVID certificates, the key, and the bundle, in
that order, stopping at the first error. -/
def dumpBundles (env : GoEnv) (cfg : SidecarConfig) (fs : FileSys)
    (svidResponse : X509SVIDResponse) : FileSys × GoResult :=
  match svidResponse.svids with
  | [] => (fs, .panicked "runtime error: index out of range")
  | svid :: _ =>
    let svidFile := pathJoin cfg.certDir cfg.svidFileName
    let svidKeyFile := pathJoin cfg.certDir cfg.svidKeyFileName
    let svidBundleFile := pathJoin cfg.certDir cfg.svidBundleFileName
    match writeCerts env fs svidFile svid.x509Svid with
    | (fs1, some e) => (fs1, .err e)
    | (fs1, none) =>
      match writeKey env fs1 svidKeyFile svid.x509SvidKey with
      | (fs2, some e) => (fs2, .err e)
      | (fs2, none) =>
        match writeCerts env fs2 svidBundleFile svid.bundle with
        | (fs3, some e) => (fs3, .err e)
        | (fs3, none) => (fs3, .ok)

/-- Mutable supervisor state of the `Sidecar`: the atomic int32 flag
`ProcessRunning`, the recorded `Process` handle, a counter allocating
fresh pids to spawns, and the pids of launched (not necessarily yet
scheduled) `checkProcessExit` watchers. -/
structure SidecarState where
  processRunning : Int
  process : Option Nat
  spawnCount : Nat
  watchers : List Nat
deriving DecidableEq, Repr

/-- The state before the first spawn. -/
def initialState : SidecarState :=
  { processRunning := 0, process := none, spawnCount := 0, watchers := [] }

/-- Observable side effects of the supervisor and the daemon loop. -/
inductive SidecarAction where
  | spawn (cmd : String) (args : List String) (pid : Nat)
  | signal (pid : Nat) (sig : Nat)
  | clientStop
deriving DecidableEq, Repr

/-- Translation of `signalProcess`: if the flag reads 0, split the configured argument
string on spaces and start the command; on start success record the
handle and launch the `checkProcessExit` watcher (deferred; note the
flag is NOT written here).  If the flag reads non-0, resolve the renew
signal and deliver it to the recorded handle. -/
def signalProcess (env : GoEnv) (cfg : SidecarConfig) (st : SidecarState) :
    SidecarState × List SidecarAction × Option String :=
  if st.processRunning = 0 then
    let args := goSplitSpace cfg.cmdArgs
    if env.startOk st.spawnCount then
      let pid := st.spawnCount
      ({ st with process := some pid, spawnCount := st.spawnCount + 1,
                 watchers := st.watchers ++ [pid] },
       [.spawn cfg.cmd args pid], none)
    else
      (st, [], some ("error executing process: " ++ cfg.cmd))
  else
    match getSignal cfg.renewSignal with
    | (_, some e) => (st, [], some ("error getting signal: " ++ cfg.renewSignal ++ "\n" ++ e))
    | (sig, none) =>
      match st.process with
      | none => (st, [], some "error signaling process: no process")
      | some pid =>
        if env.signalOk pid sig then (st, [.signal pid sig], none)
        else (st, [], some "error signaling process with signal")

/-- First statement of `checkProcessExit`, executed when the watcher
goroutine is first scheduled: `atomic.StoreInt32(&s.ProcessRunning, 1)`. -/
def checkProcessExitEnter (st : SidecarState) : SidecarState :=
  { st with processRunning := 1 }

/-- Tail of `checkProcessExit`, executed when `s.Process.Wait()` returns
because the child exited: `atomic.StoreInt32(&s.ProcessRunning, 0)`. -/
def checkProcessExitLeave (st : SidecarState) : SidecarState :=
  { st with processRunning := 0 }

/-- Translation of `updateCertificates`: dump the bundles; on error just log and
return; on success call `signalProcess`, whose error is only logged.
A panic from `dumpBundles` propagates (fourth component). -/
def updateCertificates (env : GoEnv) (cfg : SidecarConfig)
    (st : SidecarState) (fs : FileSys) (svidResponse : X509SVIDResponse) :
    SidecarState × FileSys × List SidecarAction × Option String :=
  match dumpBundles env cfg fs svidResponse with
  | (fs1, .panicked p) => (st, fs1, [], some p)
  | (fs1, .err _) => (st, fs1, [], none)
  | (fs1, .ok) =>
    match signalProcess env cfg st with
    | (st1, acts, _) => (st1, fs1, acts, none)

/-- One event the `select` in `RunDaemon` can wake up on. -/
inductive Event where
  | update (resp : X509SVIDResponse)
  | interrupt
  | sourceError (e : String)
  | cancel
deriving DecidableEq, Repr

/-- How a run of the daemon loop ended. -/
inductive RunOutcome where
  | running
  | returned (e : Option String)
  | crashed (msg : String)
deriving DecidableEq, Repr

/-- Result of running the daemon loop over a schedule of events. -/
structure DaemonResult where
  st : SidecarState
  fs : FileSys
  acts : List SidecarAction
  outcome : RunOutcome
deriving DecidableEq, Repr

/-- Translation of the `RunDaemon` event loop over an explicit schedule of channel
events.  `defer s.WorkloadAPIClient.Stop()` runs on every exit,
including panic unwinding, recorded as a `clientStop` action.  An
exhausted schedule leaves the loop still blocked (`running`). -/
def RunDaemon (env : GoEnv) (cfg : SidecarConfig) :
    SidecarState → FileSys → List Event → DaemonResult
  | st, fs, [] => ⟨st, fs, [], .running⟩
  | st, fs, ev :: rest =>
    match ev with
    | .update resp =>
      match updateCertificates env cfg st fs resp with
      | (st1, fs1, acts, some p) => ⟨st1, fs1, acts ++ [.clientStop], .crashed p⟩
      | (st1, fs1, acts, none) =>
        let r := RunDaemon env cfg st1 fs1 rest
        ⟨r.st, r.fs, acts ++ r.acts, r.outcome⟩
    | .interrupt => ⟨st, fs, [.clientStop], .returned none⟩
    | .sourceError e => ⟨st, fs, [.clientStop], .returned (some e)⟩
    | .cancel => ⟨st, fs, [.clientStop], .returned none⟩

/-- The PEM re-encoding of a certificate list: one CERTIFICATE block
per parsed certificate, concatenated in original order (the closed form
of the `pemData` loop in `writeCerts`). -/
def pemConcat (env : GoEnv) (certs : List Cert) : Bytes :=
  (certs.map fun cert => env.pemEncodeToMemory ⟨"CERTIFICATE", cert.raw⟩).flatten

/-- The spec-side termination contract of the daemon loop, stated from
the spec's words for comparison with `RunDaemon`: the first non-update
event decides the outcome — interrupt or cancellation return success,
a source error is returned as the terminal error — and updates never
terminate the loop. -/
def specOutcome : List Event → RunOutcome
  | [] => .running
  | .update _ :: rest => specOutcome rest
  | .interrupt :: _ => .returned none
  | .sourceError e :: _ => .returned (some e)
  | .cancel :: _ => .returned none

/-! ## Concrete fixtures used by witnesses and counterexamples -/

/-- Fixture parser: rejects the blob `[2]`, parses any other blob as a
single certificate whose raw bytes are the blob. -/
def parseFix (data : Bytes) : Except String (List Cert) :=
  if data = [2] then .error "asn1: structure error" else .ok [⟨data⟩]

/-- Fixture PEM encoder: tags the bytes with the label's length. -/
def pemFix (b : PemBlock) : Bytes := b.blockType.length :: b.bytes

/-- Fixture environment in which every write, spawn and signal succeeds. -/
def envFix : GoEnv :=
  { parseCertificates := parseFix, pemEncodeToMemory := pemFix,
    writeFileOk := fun _ => true, startOk := fun _ => true,
    signalOk := fun _ _ => true }

/-- Fixture configuration (the test scenario of the repository's suite). -/
def cfgFix : SidecarConfig :=
  { agentAddress := "/tmp/agent.sock", cmd := "echo", cmdArgs := "",
    certDir := "/certs", renewSignal := "SIGHUP",
    svidFileName := "svid.pem", svidKeyFileName := "svid_key.pem",
    svidBundleFileName := "svid_bundle.pem" }

/-- Fixture SVID entry with parsable blobs. -/
def svidFix : X509SVID :=
  { spiffeId := "spiffe://example.org/foo", x509Svid := [1],
    x509SvidKey := [5], bundle := [3] }

/-- Fixture SVID entry whose bundle blob fails to parse under
`parseFix`. -/
def svidBadBundle : X509SVID :=
  { spiffeId := "spiffe://example.org/foo", x509Svid := [1],
    x509SvidKey := [5], bundle := [2] }

/-- Fixture disk state: all three credential files exist with stale
contents `[0]` from a previous rotation. -/
def fsFix : FileSys :=
  [(pathJoin cfgFix.certDir cfgFix.svidFileName, ([0], certsFileMode)),
   (pathJoin cfgFix.certDir cfgFix.svidKeyFileName, ([0], keyFileMode)),
   (pathJoin cfgFix.certDir cfgFix.svidBundleFileName, ([0], certsFileMode))]

/-! ## Helper lemmas -/

theorem lookup_isSome_iff (t : List (String × Nat)) (s : String) :
    (t.lookup s).isSome ↔ s ∈ t.map Prod.fst := by
  induction t with
  | nil => simp [List.lookup]
  | cons p rest ih =>
    obtain ⟨k, v⟩ := p
    by_cases h : s = k
    · subst h; simp [List.lookup]
    · have hbeq : (s == k) = false := beq_eq_false_iff_ne.2 h
      simp [List.lookup, hbeq, h, ih]

theorem lookup_mem_values (t : List (String × Nat)) (s : String) (v : Nat)
    (h : t.lookup s = some v) : v ∈ t.map Prod.snd := by
  induction t with
  | nil => simp [List.lookup] at h
  | cons p rest ih =>
    obtain ⟨k, w⟩ := p
    by_cases hk : s = k
    · have hbeq : (s == k) = true := beq_iff_eq.2 hk
      simp only [List.lookup, hbeq] at h
      simp only [Option.some.injEq] at h
      simp only [List.map_cons]
      rw [← h]
      exact List.mem_cons_self _ _
    · have hbeq : (s == k) = false := beq_eq_false_iff_ne.2 hk
      simp only [List.lookup, hbeq] at h
      simp only [List.map_cons]
      exact List.mem_cons_of_mem _ (ih h)

theorem splitSpace_cons_space (l : List Char) :
    splitSpace (' ' :: l) = [] :: splitSpace l := by
  simp [splitSpace]

theorem splitSpace_cons_other (c : Char) (hc : ¬c = ' ') (l w : List Char)
    (ws : List (List Char)) (h : splitSpace l = w :: ws) :
    splitSpace (c :: l) = (c :: w) :: ws := by
  simp [splitSpace, hc, h]

theorem splitSpace_ne_nil (l : List Char) : splitSpace l ≠ [] := by
  induction l with
  | nil => simp [splitSpace]
  | cons c rest ih =>
    by_cases hc : c = ' '
    · subst hc; rw [splitSpace_cons_space]; simp
    · rcases h : splitSpace rest with _ | ⟨w, ws⟩
      · exact absurd h ih
      · rw [splitSpace_cons_other c hc rest w ws h]; simp

theorem splitSpace_length (l : List Char) :
    (splitSpace l).length = 1 + l.count ' ' := by
  induction l with
  | nil => simp [splitSpace]
  | cons c rest ih =>
    by_cases hc : c = ' '
    · subst hc
      rw [splitSpace_cons_space]
      simp [ih, List.count_cons]
      omega
    · rcases h : splitSpace rest with _ | ⟨w, ws⟩
      · exact absurd h (splitSpace_ne_nil rest)
      · rw [splitSpace_cons_other c hc rest w ws h]
        have hbc : (' ' == c) = false := beq_eq_false_iff_ne.2 (Ne.symm hc)
        rw [h] at ih
        simp only [List.length_cons, List.count_cons, hbc] at ih ⊢
        simp [hc] at ih ⊢
        omega

theorem splitSpace_append_space (u v : List Char) :
    splitSpace (u ++ ' ' :: v) = splitSpace u ++ splitSpace v := by
  induction u with
  | nil => simp [splitSpace_cons_space, splitSpace]
  | cons c u' ih =>
    by_cases hc : c = ' '
    · subst hc
      rw [List.cons_append, splitSpace_cons_space, splitSpace_cons_space, ih,
        List.cons_append]
    · rcases h : splitSpace u' with _ | ⟨w, ws⟩
      · exact absurd h (splitSpace_ne_nil u')
      · have h2 : splitSpace (u' ++ ' ' :: v) = w :: (ws ++ splitSpace v) := by
          rw [ih, h]; rfl
        rw [List.cons_append, splitSpace_cons_other c hc _ _ _ h2,
          splitSpace_cons_other c hc _ _ _ h]
        simp

theorem dump_cons_no_panic (env : GoEnv) (cfg : SidecarConfig) (fs : FileSys)
    (e : X509SVID) (rest : List X509SVID) (msg : String) :
    (dumpBundles env cfg fs ⟨e :: rest⟩).2 ≠ .panicked msg := by
  rcases hw1 : writeCerts env fs (pathJoin cfg.certDir cfg.svidFileName) e.x509Svid
    with ⟨fs1, o1⟩
  cases o1 with
  | some e1 => simp [dumpBundles, hw1]
  | none =>
    rcases hw2 : writeKey env fs1 (pathJoin cfg.certDir cfg.svidKeyFileName) e.x509SvidKey
      with ⟨fs2, o2⟩
    cases o2 with
    | some e2 => simp [dumpBundles, hw1, hw2]
    | none =>
      rcases hw3 : writeCerts env fs2 (pathJoin cfg.certDir cfg.svidBundleFileName) e.bundle
        with ⟨fs3, o3⟩
      cases o3 <;> simp [dumpBundles, hw1, hw2, hw3]

/-! ## Claims -/

/-- C6: `getSignal` succeeds, with a non-zero signal value, exactly on
the strings of its fixed table (matched exactly and case-sensitively),
and on every other string returns the zero signal value together with
an "unrecognized signal" error; it is a total function on strings. -/
theorem c6_getSignal_table (s : String) :
    (s ∈ signalTable.map Prod.fst →
       (getSignal s).2 = none ∧ (getSignal s).1 ≠ 0) ∧
    (s ∉ signalTable.map Prod.fst →
       getSignal s = (0, some ("unrecognized signal: " ++ s))) := by
  constructor
  · intro hmem
    have hs : (signalTable.lookup s).isSome := (lookup_isSome_iff _ _).2 hmem
    obtain ⟨v, hv⟩ := Option.isSome_iff_exists.1 hs
    have hvmem := lookup_mem_values _ _ _ hv
    have hvne : v ≠ 0 := by
      intro h0
      rw [h0] at hvmem
      simp [signalTable] at hvmem
    simp [getSignal, hv, hvne]
  · intro hmem
    have hnone : signalTable.lookup s = none := by
      rcases h : signalTable.lookup s with _ | v
      · rfl
      · exact absurd ((lookup_isSome_iff _ _).1 (by simp [h])) hmem
    simp [getSignal, hnone]

/-- C6 witness: "SIGTERM" resolves without error; "sigterm" and
"SIGMADEUP" yield the unrecognized-signal error. -/
theorem c6_witness :
    ((getSignal "SIGTERM").2 = none ∧ (getSignal "SIGTERM").1 ≠ 0) ∧
    getSignal "sigterm" = (0, some ("unrecognized signal: " ++ "sigterm")) ∧
    getSignal "SIGMADEUP" = (0, some ("unrecognized signal: " ++ "SIGMADEUP")) :=
  ⟨(c6_getSignal_table "SIGTERM").1 (by decide),
   (c6_getSignal_table "sigterm").2 (by decide),
   (c6_getSignal_table "SIGMADEUP").2 (by decide)⟩

/-- C7: `dumpBundles` consumes only the first entry of the update's
entry sequence: its entire result (disk state and returned status) is
the same whatever entries follow the first, so the remaining entries
are discarded without producing an error. -/
theorem c7_first_entry_only (env : GoEnv) (cfg : SidecarConfig) (fs : FileSys)
    (e : X509SVID) (rest : List X509SVID) :
    dumpBundles env cfg fs ⟨e :: rest⟩ = dumpBundles env cfg fs ⟨[e]⟩ := rfl

/-- C9: `dumpBundles` indexes the entry sequence unconditionally: on an
update with an empty sequence it panics (it does not return an error,
and the disk is untouched), while on any update with a non-empty
sequence it never panics. -/
theorem c9_empty_svids_panics (env : GoEnv) (cfg : SidecarConfig) (fs : FileSys) :
    dumpBundles env cfg fs ⟨[]⟩ = (fs, .panicked "runtime error: index out of range") ∧
    (∀ u : X509SVIDResponse, u.svids ≠ [] →
       ∀ msg, (dumpBundles env cfg fs u).2 ≠ .panicked msg) := by
  constructor
  · rfl
  · intro u hu msg
    rcases hsv : u.svids with _ | ⟨e, rest⟩
    · exact absurd hsv hu
    · have : u = ⟨e :: rest⟩ := by cases u; simp_all
      rw [this]
      exact dump_cons_no_panic env cfg fs e rest msg

/-- C9 witness: the empty update panics while a one-entry update does
not. -/
theorem c9_witness :
    dumpBundles envFix cfgFix [] ⟨[]⟩ =
      ([], .panicked "runtime error: index out of range") ∧
    (dumpBundles envFix cfgFix [] ⟨[svidFix]⟩).2 ≠ .panicked "runtime error: index out of range" :=
  ⟨(c9_empty_svids_panics envFix cfgFix []).1,
   (c9_empty_svids_panics envFix cfgFix []).2 ⟨[svidFix]⟩ (by decide) _⟩

/-- C10: on the spawn path, the child's argument list is exactly the
space-split of the configured argument string; that split always has
length one plus the number of space characters, is the one-element list
of the empty string when the configured string is empty, and contains
an (additional) empty-string argument whenever two spaces are adjacent. -/
theorem c10_split_args (env : GoEnv) (cfg : SidecarConfig) (st : SidecarState)
    (hrun : st.processRunning = 0) (hstart : env.startOk st.spawnCount = true) :
    (signalProcess env cfg st).2.1 =
      [.spawn cfg.cmd (goSplitSpace cfg.cmdArgs) st.spawnCount] ∧
    (goSplitSpace cfg.cmdArgs).length = 1 + cfg.cmdArgs.data.count ' ' ∧
    (cfg.cmdArgs = "" → goSplitSpace cfg.cmdArgs = [""]) ∧
    (∀ a b : List Char, cfg.cmdArgs.data = a ++ ' ' :: ' ' :: b →
       "" ∈ goSplitSpace cfg.cmdArgs) := by
  refine ⟨?_, ?_, ?_, ?_⟩
  · simp [signalProcess, hrun, hstart]
  · simp [goSplitSpace, splitSpace_length]
  · intro h; rw [h]; decide
  · intro a b hab
    have : splitSpace cfg.cmdArgs.data =
        splitSpace a ++ [] :: splitSpace b := by
      rw [hab, splitSpace_append_space]
      simp [splitSpace]
    simp only [goSplitSpace, this, List.map_append, List.map_cons]
    exact List.mem_append_right _ (List.mem_cons_self _ _)

/-- C10 witness: with the fixture configuration (empty argument string)
the child is spawned with exactly one empty-string argument. -/
theorem c10_witness :
    (signalProcess envFix cfgFix initialState).2.1 =
      [SidecarAction.spawn cfgFix.cmd (goSplitSpace cfgFix.cmdArgs) initialState.spawnCount] :=
  (c10_split_args envFix cfgFix initialState rfl rfl).1

theorem fsGet_fsSet_same (fs : FileSys) (p : String) (v : Bytes × Nat) :
    fsGet (fsSet fs p v) p = some v := by
  induction fs with
  | nil => simp [fsSet, fsGet]
  | cons hd tl ih =>
    obtain ⟨q, w⟩ := hd
    by_cases h : q = p
    · simp [fsSet, fsGet, h]
    · simp [fsSet, fsGet, h, ih]

theorem fsGet_fsSet_other (fs : FileSys) (p q : String) (v : Bytes × Nat)
    (h : q ≠ p) : fsGet (fsSet fs q v) p = fsGet fs p := by
  induction fs with
  | nil => simp [fsSet, fsGet, h]
  | cons hd tl ih =>
    obtain ⟨r, w⟩ := hd
    by_cases hr : r = q
    · simp [fsSet, fsGet, hr, h]
    · simp [fsSet, fsGet, hr, ih]

theorem foldl_pem_eq_concat (env : GoEnv) (certs : List Cert) (acc : Bytes) :
    certs.foldl
        (fun acc2 cert => acc2 ++ env.pemEncodeToMemory ⟨"CERTIFICATE", cert.raw⟩)
        acc = acc ++ pemConcat env certs := by
  induction certs generalizing acc with
  | nil => simp [pemConcat]
  | cons c cs ih => simp [pemConcat, ih]

theorem writeCerts_cases (env : GoEnv) (fs : FileSys) (file : String)
    (data : Bytes) (fs1 : FileSys) (o : Option String)
    (h : writeCerts env fs file data = (fs1, o)) :
    (o = none ∧ ∃ certs, env.parseCertificates data = .ok certs ∧
       fs1 = fsSet fs file (pemConcat env certs, certsFileMode)) ∨
    (∃ e, o = some e ∧ fs1 = fs) := by
  unfold writeCerts at h
  cases hp : env.parseCertificates data with
  | error e =>
    rw [hp] at h
    simp at h
    exact Or.inr ⟨e, h.2.symm, h.1.symm⟩
  | ok certs =>
    rw [hp] at h
    by_cases hw : env.writeFileOk file
    · simp [writeFileGo, hw] at h
      refine Or.inl ⟨h.2.symm, certs, rfl, ?_⟩
      rw [← h.1, foldl_pem_eq_concat]
      simp
    · simp [writeFileGo, hw] at h
      exact Or.inr ⟨_, h.2.symm, h.1.symm⟩

theorem writeKey_cases (env : GoEnv) (fs : FileSys) (file : String)
    (data : Bytes) (fs1 : FileSys) (o : Option String)
    (h : writeKey env fs file data = (fs1, o)) :
    (o = none ∧ fs1 = fsSet fs file
       (env.pemEncodeToMemory ⟨"EC PRIVATE KEY", data⟩, keyFileMode)) ∨
    (∃ e, o = some e ∧ fs1 = fs) := by
  unfold writeKey at h
  by_cases hw : env.writeFileOk file
  · simp [writeFileGo, hw] at h
    exact Or.inl ⟨h.2.symm, h.1.symm⟩
  · simp [writeFileGo, hw] at h
    exact Or.inr ⟨_, h.2.symm, h.1.symm⟩

theorem dump_error_shape (env : GoEnv) (cfg : SidecarConfig) (fs : FileSys)
    (svid : X509SVID) (rest : List X509SVID) (fs' : FileSys) (e : String)
    (hrun : dumpBundles env cfg fs ⟨svid :: rest⟩ = (fs', .err e)) :
    fs' = fs ∨
    (∃ d, fs' = fsSet fs (pathJoin cfg.certDir cfg.svidFileName)
       (d, certsFileMode)) ∨
    (∃ d k, fs' =
       fsSet (fsSet fs (pathJoin cfg.certDir cfg.svidFileName) (d, certsFileMode))
         (pathJoin cfg.certDir cfg.svidKeyFileName) (k, keyFileMode)) := by
  rcases hw1 : writeCerts env fs (pathJoin cfg.certDir cfg.svidFileName) svid.x509Svid
    with ⟨fs1, o1⟩
  cases o1 with
  | some e1 =>
    rcases writeCerts_cases env fs _ _ fs1 _ hw1 with ⟨hnone, -⟩ | ⟨e2, -, hfs⟩
    · exact absurd hnone (by simp)
    · simp [dumpBundles, hw1] at hrun
      exact Or.inl (hrun.1.symm.trans hfs)
  | none =>
    rcases writeCerts_cases env fs _ _ fs1 _ hw1 with ⟨-, certs, -, hfs1⟩ | ⟨e2, habs, -⟩
    · rcases hw2 : writeKey env fs1 (pathJoin cfg.certDir cfg.svidKeyFileName)
        svid.x509SvidKey with ⟨fs2, o2⟩
      cases o2 with
      | some e2 =>
        rcases writeKey_cases env fs1 _ _ fs2 _ hw2 with ⟨hnone, -⟩ | ⟨e3, -, hfs2⟩
        · exact absurd hnone (by simp)
        · simp [dumpBundles, hw1, hw2] at hrun
          exact Or.inr (Or.inl ⟨pemConcat env certs, hrun.1.symm.trans (hfs2.trans hfs1)⟩)
      | none =>
        rcases writeKey_cases env fs1 _ _ fs2 _ hw2 with ⟨-, hfs2⟩ | ⟨e3, habs, -⟩
        · rcases hw3 : writeCerts env fs2 (pathJoin cfg.certDir cfg.svidBundleFileName)
            svid.bundle with ⟨fs3, o3⟩
          cases o3 with
          | some e3 =>
            rcases writeCerts_cases env fs2 _ _ fs3 _ hw3 with ⟨hnone, -⟩ | ⟨e4, -, hfs3⟩
            · exact absurd hnone (by simp)
            · simp [dumpBundles, hw1, hw2, hw3] at hrun
              refine Or.inr (Or.inr ⟨pemConcat env certs,
                env.pemEncodeToMemory ⟨"EC PRIVATE KEY", svid.x509SvidKey⟩, ?_⟩)
              rw [hrun.1.symm.trans hfs3, hfs2, hfs1]
          | none =>
            simp [dumpBundles, hw1, hw2, hw3] at hrun
        · exact absurd habs (by simp)
    · exact absurd habs (by simp)

/-- C2 counterexample: with the stale disk state `fsFix` and an update
whose bundle blob fails to parse, `dumpBundles` returns an error yet
the certificate file (and the key file) already hold the new rotation's
contents, not their previous ones. -/
theorem c2_failed_rotation_counterexample :
    (∃ e, (dumpBundles envFix cfgFix fsFix ⟨[svidBadBundle]⟩).2 = .err e) ∧
    fsGet (dumpBundles envFix cfgFix fsFix ⟨[svidBadBundle]⟩).1
        (pathJoin cfgFix.certDir cfgFix.svidFileName) ≠
      fsGet fsFix (pathJoin cfgFix.certDir cfgFix.svidFileName) ∧
    fsGet (dumpBundles envFix cfgFix fsFix ⟨[svidBadBundle]⟩).1
        (pathJoin cfgFix.certDir cfgFix.svidKeyFileName) ≠
      fsGet fsFix (pathJoin cfgFix.certDir cfgFix.svidKeyFileName) := by
  refine ⟨⟨"asn1: structure error", ?_⟩, ?_, ?_⟩ <;> decide

/-- C2 (amended): a failing rotation aborts at the first failed write,
so on any `dumpBundles` error the disk is in one of three states: all
three files unchanged (first write failed), only the certificate file
rewritten (key write failed), or the certificate and key files
rewritten (bundle write failed); in particular the bundle file always
keeps its previous contents on a failed rotation, but files
successfully written earlier in the same rotation keep the NEW
contents. -/
theorem c2_error_prefix_writes (env : GoEnv) (cfg : SidecarConfig)
    (fs : FileSys) (u : X509SVIDResponse) (svid : X509SVID)
    (rest : List X509SVID) (fs' : FileSys) (e : String)
    (hsv : u.svids = svid :: rest)
    (hrun : dumpBundles env cfg fs u = (fs', .err e)) :
    (fs' = fs ∨
     (∃ d, fs' = fsSet fs (pathJoin cfg.certDir cfg.svidFileName)
        (d, certsFileMode)) ∨
     (∃ d k, fs' =
        fsSet (fsSet fs (pathJoin cfg.certDir cfg.svidFileName) (d, certsFileMode))
          (pathJoin cfg.certDir cfg.svidKeyFileName) (k, keyFileMode))) ∧
    (pathJoin cfg.certDir cfg.svidFileName ≠ pathJoin cfg.certDir cfg.svidBundleFileName →
     pathJoin cfg.certDir cfg.svidKeyFileName ≠ pathJoin cfg.certDir cfg.svidBundleFileName →
     fsGet fs' (pathJoin cfg.certDir cfg.svidBundleFileName) =
       fsGet fs (pathJoin cfg.certDir cfg.svidBundleFileName)) := by
  obtain ⟨svids⟩ := u
  simp only at hsv
  subst hsv
  have hshape := dump_error_shape env cfg fs svid rest fs' e hrun
  refine ⟨hshape, fun hd1 hd2 => ?_⟩
  rcases hshape with hfs | ⟨d, hfs⟩ | ⟨d, k, hfs⟩
  · rw [hfs]
  · rw [hfs, fsGet_fsSet_other _ _ _ _ hd1]
  · rw [hfs, fsGet_fsSet_other _ _ _ _ hd2, fsGet_fsSet_other _ _ _ _ hd1]

/-- C2 witness: instantiating the amended claim at the bundle-parse
failure shows the bundle file keeps its previous contents there. -/
theorem c2_witness :
    fsGet (dumpBundles envFix cfgFix fsFix ⟨[svidBadBundle]⟩).1
        (pathJoin cfgFix.certDir cfgFix.svidBundleFileName) =
      fsGet fsFix (pathJoin cfgFix.certDir cfgFix.svidBundleFileName) :=
  (c2_error_prefix_writes envFix cfgFix fsFix ⟨[svidBadBundle]⟩ svidBadBundle []
      (dumpBundles envFix cfgFix fsFix ⟨[svidBadBundle]⟩).1 "asn1: structure error"
      rfl (by decide)).2 (by decide) (by decide)

/-- C1 counterexample: from the not-running state, a successful spawn
(`envFix` makes every start succeed) returns with the running flag
still reading not-running — the flag store lives in the watcher
goroutine, which has not been scheduled — so a second invocation of
`signalProcess` spawns a second process instead of signalling. -/
theorem c1_flag_counterexample :
    (signalProcess envFix cfgFix initialState).1.processRunning = 0 ∧
    (signalProcess envFix cfgFix initialState).1.process = some 0 ∧
    (signalProcess envFix cfgFix
        (signalProcess envFix cfgFix initialState).1).2.1 =
      [SidecarAction.spawn "echo" [""] 1] := by
  refine ⟨?_, ?_, ?_⟩ <;> decide

/-- C1 (amended): on a successful spawn from the not-running state,
`signalProcess` records the process handle and launches the
`checkProcessExit` watcher, but leaves the flag at not-running; the
NotStarted→Running transition happens only when the watcher's first
statement runs, and the watcher resets the flag when the child exits;
a subsequent invocation signals instead of spawning once (and only
once) the watcher has started. -/
theorem c1_spawn_watcher_transitions (env : GoEnv) (cfg : SidecarConfig)
    (st : SidecarState) (hrun : st.processRunning = 0)
    (hstart : env.startOk st.spawnCount = true) :
    (signalProcess env cfg st).2.2 = none ∧
    (signalProcess env cfg st).1.process = some st.spawnCount ∧
    (signalProcess env cfg st).1.watchers = st.watchers ++ [st.spawnCount] ∧
    (signalProcess env cfg st).1.processRunning = 0 ∧
    (checkProcessExitEnter (signalProcess env cfg st).1).processRunning = 1 ∧
    (checkProcessExitLeave
      (checkProcessExitEnter (signalProcess env cfg st).1)).processRunning = 0 ∧
    (∀ sig, getSignal cfg.renewSignal = (sig, none) →
       env.signalOk st.spawnCount sig = true →
       (signalProcess env cfg
           (checkProcessExitEnter (signalProcess env cfg st).1)).2.1 =
         [SidecarAction.signal st.spawnCount sig]) := by
  refine ⟨?_, ?_, ?_, ?_, ?_, ?_, ?_⟩
  · simp [signalProcess, hrun, hstart]
  · simp [signalProcess, hrun, hstart]
  · simp [signalProcess, hrun, hstart]
  · simp [signalProcess, hrun, hstart]
  · simp [checkProcessExitEnter]
  · simp [checkProcessExitLeave]
  · intro sig hsig hok
    simp [signalProcess, hrun, hstart, checkProcessExitEnter, hsig, hok]

/-- C1 witness: with the fixture environment and configuration, spawn
succeeds, and after the watcher's first step a second invocation sends
SIGHUP (signal 1) to pid 0. -/
theorem c1_witness :
    (signalProcess envFix cfgFix initialState).2.2 = none ∧
    (signalProcess envFix cfgFix
        (checkProcessExitEnter (signalProcess envFix cfgFix initialState).1)).2.1 =
      [SidecarAction.signal 0 1] :=
  ⟨(c1_spawn_watcher_transitions envFix cfgFix initialState rfl rfl).1,
   (c1_spawn_watcher_transitions envFix cfgFix initialState rfl rfl).2.2.2.2.2.2
     1 (by decide) rfl⟩

/-- C3: `updateCertificates` invokes `signalProcess` only when
`dumpBundles` succeeded — on any write failure no spawn/signal action
occurs and the supervisor state is untouched — and a failure in the
first write (certificate) or the second (key) aborts the remaining
writes of that update. -/
theorem c3_no_signal_on_failed_dump (env : GoEnv) (cfg : SidecarConfig)
    (st : SidecarState) (fs : FileSys) (u : X509SVIDResponse) :
    ((dumpBundles env cfg fs u).2 ≠ .ok →
       (updateCertificates env cfg st fs u).2.2.1 = [] ∧
       (updateCertificates env cfg st fs u).1 = st) ∧
    (∀ svid rest fs1 e1, u.svids = svid :: rest →
       writeCerts env fs (pathJoin cfg.certDir cfg.svidFileName) svid.x509Svid =
         (fs1, some e1) →
       dumpBundles env cfg fs u = (fs1, .err e1)) ∧
    (∀ svid rest fs1 fs2 e2, u.svids = svid :: rest →
       writeCerts env fs (pathJoin cfg.certDir cfg.svidFileName) svid.x509Svid =
         (fs1, none) →
       writeKey env fs1 (pathJoin cfg.certDir cfg.svidKeyFileName) svid.x509SvidKey =
         (fs2, some e2) →
       dumpBundles env cfg fs u = (fs2, .err e2)) := by
  refine ⟨?_, ?_, ?_⟩
  · intro hne
    rcases hd : dumpBundles env cfg fs u with ⟨fsd, r⟩
    cases r with
    | ok => rw [hd] at hne; simp at hne
    | err e => simp [updateCertificates, hd]
    | panicked p => simp [updateCertificates, hd]
  · intro svid rest fs1 e1 hsv hw1
    obtain ⟨svids⟩ := u
    simp only at hsv
    subst hsv
    simp [dumpBundles, hw1]
  · intro svid rest fs1 fs2 e2 hsv hw1 hw2
    obtain ⟨svids⟩ := u
    simp only at hsv
    subst hsv
    simp [dumpBundles, hw1, hw2]

/-- C3 witness: at the bundle-parse failure fixture, no supervisor
action happens and the supervisor state is unchanged. -/
theorem c3_witness :
    (updateCertificates envFix cfgFix initialState fsFix ⟨[svidBadBundle]⟩).2.2.1 = [] ∧
    (updateCertificates envFix cfgFix initialState fsFix ⟨[svidBadBundle]⟩).1 =
      initialState :=
  (c3_no_signal_on_failed_dump envFix cfgFix initialState fsFix
    ⟨[svidBadBundle]⟩).1 (by decide)

theorem updateCertificates_no_panic (env : GoEnv) (cfg : SidecarConfig)
    (st : SidecarState) (fs : FileSys) (resp : X509SVIDResponse)
    (h : resp.svids ≠ []) :
    (updateCertificates env cfg st fs resp).2.2.2 = none := by
  obtain ⟨svids⟩ := resp
  rcases hsv : svids with _ | ⟨e, r⟩
  · exact absurd (by rw [hsv]) h
  subst hsv
  rcases hd : dumpBundles env cfg fs ⟨e :: r⟩ with ⟨fsd, res⟩
  cases res with
  | ok =>
    rcases hs : signalProcess env cfg st with ⟨st1, acts, er⟩
    simp [updateCertificates, hd, hs]
  | err msg => simp [updateCertificates, hd]
  | panicked msg =>
    have hnp := dump_cons_no_panic env cfg fs e r msg
    rw [hd] at hnp
    exact absurd rfl hnp

theorem signalProcess_no_stop (env : GoEnv) (cfg : SidecarConfig)
    (st : SidecarState) :
    SidecarAction.clientStop ∉ (signalProcess env cfg st).2.1 := by
  by_cases hrun : st.processRunning = 0
  · by_cases hs : env.startOk st.spawnCount
    · simp [signalProcess, hrun, hs]
    · simp [signalProcess, hrun, hs]
  · rcases hg : getSignal cfg.renewSignal with ⟨sig, o⟩
    cases o with
    | some e => simp [signalProcess, hrun, hg]
    | none =>
      cases hp : st.process with
      | none => simp [signalProcess, hrun, hg, hp]
      | some pid =>
        by_cases hok : env.signalOk pid sig
        · simp [signalProcess, hrun, hg, hp, hok]
        · simp [signalProcess, hrun, hg, hp, hok]

theorem updateCertificates_no_stop (env : GoEnv) (cfg : SidecarConfig)
    (st : SidecarState) (fs : FileSys) (resp : X509SVIDResponse) :
    SidecarAction.clientStop ∉ (updateCertificates env cfg st fs resp).2.2.1 := by
  rcases hd : dumpBundles env cfg fs resp with ⟨fsd, r⟩
  rcases hs : signalProcess env cfg st with ⟨st1, acts, er⟩
  have hacts := signalProcess_no_stop env cfg st
  rw [hs] at hacts
  cases r with
  | ok => simpa [updateCertificates, hd, hs] using hacts
  | err e => simp [updateCertificates, hd]
  | panicked p => simp [updateCertificates, hd]

theorem runDaemon_stop_count (env : GoEnv) (cfg : SidecarConfig) :
    ∀ (events : List Event) (st : SidecarState) (fs : FileSys),
      ((RunDaemon env cfg st fs events).acts.count SidecarAction.clientStop) =
        (match (RunDaemon env cfg st fs events).outcome with
         | .running => 0
         | .returned _ => 1
         | .crashed _ => 1) := by
  intro events
  induction events with
  | nil => intro st fs; rfl
  | cons ev rest ih =>
    intro st fs
    cases ev with
    | update resp =>
      rcases hu : updateCertificates env cfg st fs resp with ⟨st1, fs1, acts, p⟩
      have hnostop := updateCertificates_no_stop env cfg st fs resp
      rw [hu] at hnostop
      have hzero : acts.count SidecarAction.clientStop = 0 :=
        List.count_eq_zero.2 hnostop
      cases p with
      | some msg =>
        simp [RunDaemon, hu, List.count_append, hzero]
      | none =>
        simp [RunDaemon, hu, List.count_append, hzero]
        exact ih st1 fs1
    | interrupt => simp [RunDaemon]
    | sourceError e => simp [RunDaemon]
    | cancel => simp [RunDaemon]

/-- C4: over any schedule whose identity updates are well-formed
(non-empty entry sequence), the daemon loop's outcome is exactly the
spec's termination contract: the first interrupt or cancellation
returns success, the first source error is returned as the terminal
error, and updates — including ones whose writes or supervision fail —
never terminate the loop. -/
theorem c4_runDaemon_termination (env : GoEnv) (cfg : SidecarConfig)
    (st : SidecarState) (fs : FileSys) (events : List Event)
    (hwf : ∀ resp, Event.update resp ∈ events → resp.svids ≠ []) :
    (RunDaemon env cfg st fs events).outcome = specOutcome events := by
  induction events generalizing st fs with
  | nil => rfl
  | cons ev rest ih =>
    cases ev with
    | update resp =>
      have hne := hwf resp (List.mem_cons_self _ _)
      rcases hu : updateCertificates env cfg st fs resp with ⟨st1, fs1, acts, p⟩
      have hp := updateCertificates_no_panic env cfg st fs resp hne
      rw [hu] at hp
      simp only at hp
      subst hp
      have ihr := ih st1 fs1 (fun r hr => hwf r (List.mem_cons_of_mem _ hr))
      simp [RunDaemon, hu, specOutcome, ihr]
    | interrupt => simp [RunDaemon, specOutcome]
    | sourceError e => simp [RunDaemon, specOutcome]
    | cancel => simp [RunDaemon, specOutcome]

/-- C4 witness: a well-formed update followed by an interrupt makes the
loop process the update and then return success, as the contract says. -/
theorem c4_witness :
    (RunDaemon envFix cfgFix initialState fsFix
        [Event.update ⟨[svidFix]⟩, Event.interrupt]).outcome =
      specOutcome [Event.update ⟨[svidFix]⟩, Event.interrupt] :=
  c4_runDaemon_termination envFix cfgFix initialState fsFix
    [Event.update ⟨[svidFix]⟩, Event.interrupt]
    (by
      intro resp hr
      simp only [List.mem_cons, List.not_mem_nil, or_false] at hr
      rcases hr with hr | hr
      · cases hr; decide
      · exact absurd hr (by simp))

/-- C5: on every terminating run of the daemon loop — interrupt,
cancellation, or fatal source error — the update source's stop routine
(the deferred client `Stop`) is invoked exactly once. -/
theorem c5_stop_exactly_once (env : GoEnv) (cfg : SidecarConfig)
    (st : SidecarState) (fs : FileSys) (events : List Event) (r : Option String)
    (h : (RunDaemon env cfg st fs events).outcome = .returned r) :
    (RunDaemon env cfg st fs events).acts.count SidecarAction.clientStop = 1 := by
  have hc := runDaemon_stop_count env cfg events st fs
  rw [h] at hc
  simpa using hc

/-- C5 witness: a run terminated by an interrupt stops the client
exactly once. -/
theorem c5_witness :
    (RunDaemon envFix cfgFix initialState fsFix
        [Event.interrupt]).acts.count SidecarAction.clientStop = 1 :=
  c5_stop_exactly_once envFix cfgFix initialState fsFix [Event.interrupt] none rfl

/-- C8: on a rotation where `dumpBundles` succeeds and the three
configured paths are distinct, the certificate file holds exactly the
concatenated CERTIFICATE PEM blocks of the parsed leaf certificates in
original order with mode 0644, the key file holds exactly one PEM
block with the fixed EC PRIVATE KEY label around the raw key bytes
with mode 0600, and the bundle file the concatenated PEM blocks of the
parsed bundle certificates with mode 0644. -/
theorem c8_success_file_contents (env : GoEnv) (cfg : SidecarConfig)
    (fs : FileSys) (u : X509SVIDResponse) (svid : X509SVID)
    (rest : List X509SVID) (certsA certsB : List Cert) (fs' : FileSys)
    (hsv : u.svids = svid :: rest)
    (hpa : env.parseCertificates svid.x509Svid = .ok certsA)
    (hpb : env.parseCertificates svid.bundle = .ok certsB)
    (hrun : dumpBundles env cfg fs u = (fs', .ok))
    (hd1 : pathJoin cfg.certDir cfg.svidFileName ≠
      pathJoin cfg.certDir cfg.svidKeyFileName)
    (hd2 : pathJoin cfg.certDir cfg.svidFileName ≠
      pathJoin cfg.certDir cfg.svidBundleFileName)
    (hd3 : pathJoin cfg.certDir cfg.svidKeyFileName ≠
      pathJoin cfg.certDir cfg.svidBundleFileName) :
    fsGet fs' (pathJoin cfg.certDir cfg.svidFileName) =
      some (pemConcat env certsA, certsFileMode) ∧
    fsGet fs' (pathJoin cfg.certDir cfg.svidKeyFileName) =
      some (env.pemEncodeToMemory ⟨"EC PRIVATE KEY", svid.x509SvidKey⟩, keyFileMode) ∧
    fsGet fs' (pathJoin cfg.certDir cfg.svidBundleFileName) =
      some (pemConcat env certsB, certsFileMode) := by
  obtain ⟨svids⟩ := u
  simp only at hsv
  subst hsv
  rcases hw1 : writeCerts env fs (pathJoin cfg.certDir cfg.svidFileName) svid.x509Svid
    with ⟨fs1, o1⟩
  cases o1 with
  | some e1 => simp [dumpBundles, hw1] at hrun
  | none =>
    rcases writeCerts_cases env fs _ _ fs1 _ hw1 with ⟨-, certsA2, hpa2, hfs1⟩ | ⟨e2, habs, -⟩
    · rw [hpa] at hpa2
      simp only [Except.ok.injEq] at hpa2
      subst hpa2
      rcases hw2 : writeKey env fs1 (pathJoin cfg.certDir cfg.svidKeyFileName)
        svid.x509SvidKey with ⟨fs2, o2⟩
      cases o2 with
      | some e2 => simp [dumpBundles, hw1, hw2] at hrun
      | none =>
        rcases writeKey_cases env fs1 _ _ fs2 _ hw2 with ⟨-, hfs2⟩ | ⟨e3, habs, -⟩
        · rcases hw3 : writeCerts env fs2 (pathJoin cfg.certDir cfg.svidBundleFileName)
            svid.bundle with ⟨fs3, o3⟩
          cases o3 with
          | some e3 => simp [dumpBundles, hw1, hw2, hw3] at hrun
          | none =>
            rcases writeCerts_cases env fs2 _ _ fs3 _ hw3 with ⟨-, certsB2, hpb2, hfs3⟩ | ⟨e4, habs, -⟩
            · rw [hpb] at hpb2
              simp only [Except.ok.injEq] at hpb2
              subst hpb2
              simp [dumpBundles, hw1, hw2, hw3] at hrun
              rw [← hrun, hfs3, hfs2, hfs1]
              refine ⟨?_, ?_, ?_⟩
              · rw [fsGet_fsSet_other _ _ _ _ (Ne.symm hd2),
                  fsGet_fsSet_other _ _ _ _ (Ne.symm hd1), fsGet_fsSet_same]
              · rw [fsGet_fsSet_other _ _ _ _ (Ne.symm hd3), fsGet_fsSet_same]
              · rw [fsGet_fsSet_same]
            · exact absurd habs (by simp)
        · exact absurd habs (by simp)
    · exact absurd habs (by simp)

/-- C8 witness: the fixture rotation succeeds and produces exactly the
PEM re-encodings with modes 0644/0600 at the three distinct paths. -/
theorem c8_witness :
    fsGet (dumpBundles envFix cfgFix fsFix ⟨[svidFix]⟩).1
        (pathJoin cfgFix.certDir cfgFix.svidFileName) =
      some (pemConcat envFix [⟨[1]⟩], certsFileMode) ∧
    fsGet (dumpBundles envFix cfgFix fsFix ⟨[svidFix]⟩).1
        (pathJoin cfgFix.certDir cfgFix.svidKeyFileName) =
      some (envFix.pemEncodeToMemory ⟨"EC PRIVATE KEY", [5]⟩, keyFileMode) ∧
    fsGet (dumpBundles envFix cfgFix fsFix ⟨[svidFix]⟩).1
        (pathJoin cfgFix.certDir cfgFix.svidBundleFileName) =
      some (pemConcat envFix [⟨[3]⟩], certsFileMode) :=
  c8_success_file_contents envFix cfgFix fsFix ⟨[svidFix]⟩ svidFix []
    [⟨[1]⟩] [⟨[3]⟩] (dumpBundles envFix cfgFix fsFix ⟨[svidFix]⟩).1
    rfl rfl rfl (by decide) (by decide) (by decide) (by decide)

end SpiffeHelper
